import Mathlib

/-!
Shallow embedding of `src/lib.rs` of the `psp` payment-processing module.

Modelling conventions:
* Rust `String` / `&str` values are modelled as their UTF-8 byte sequences,
  `List Nat` with each entry a byte.  Rust indexes and slices strings by
  BYTES, and a range slice panics when an endpoint is not a character
  boundary; both facts are modelled explicitly below.
* Rust `f32` is modelled by `F32`: either NaN or an exact rational carrying
  the numeric content.  The only arithmetic the program performs on `f32`
  is `value * (fee / 100.0)` with `fee ∈ {3.0, 5.0}`; since
  `3.0f32 / 100.0f32` and `5.0f32 / 100.0f32` are exactly the `f32`
  literals `0.03` and `0.05`, exact rationals distinguish everything these
  claims need.
* `chrono::NaiveDate` is modelled as an `Int` counting days since
  1970-01-01, bounded above by chrono's `NaiveDate::MAX` (262143-12-31).
  `Local::now().date_naive()` is an external clock read, passed to
  `make_payable` as an explicit `now` argument.
* A Rust panic / abort (slice out of bounds, `usize` overflow, `unwrap`
  on `None`) is modelled by the fallible operation returning `none`.
-/

namespace PSP

/-- Bytes of a Rust string (UTF-8). -/
abbrev RStr := List Nat

/-- `const CARD_DIGITS_TO_SAVE: usize = 4;` -/
def CARD_DIGITS_TO_SAVE : Nat := 4

/-- `const DEFAULT_FEE_FOR_DEBIT: f32 = 3.0;` -/
def DEFAULT_FEE_FOR_DEBIT : Rat := 3

/-- `const DEFAULT_FEE_FOR_CREDIT: f32 = 5.0;` -/
def DEFAULT_FEE_FOR_CREDIT : Rat := 5

/-- `const DEFAULT_DAYS_FOR_CREDIT_PAYABLE: u64 = 30;` -/
def DEFAULT_DAYS_FOR_CREDIT_PAYABLE : Nat := 30

/-- Model of Rust `f32`: NaN or an exact finite value. -/
inductive F32 where
  | nan : F32
  | val : Rat → F32
deriving DecidableEq, Repr

/-- `f32` multiplication on the model: NaN is absorbing, finite values
multiply exactly. -/
def F32.mul : F32 → F32 → F32
  | F32.val a, F32.val b => F32.val (a * b)
  | _, _ => F32.nan

/-- `enum PaymentMethod { Debit, Credit }` -/
inductive PaymentMethod where
  | Debit : PaymentMethod
  | Credit : PaymentMethod
deriving DecidableEq, Repr

/-- `enum PayableStatus { Paid, WaitingFunds }` -/
inductive PayableStatus where
  | Paid : PayableStatus
  | WaitingFunds : PayableStatus
deriving DecidableEq, Repr

/-- `struct Card { number, holder, expires_at, cvv: String }` -/
structure Card where
  number : RStr
  holder : RStr
  expires_at : RStr
  cvv : RStr
deriving DecidableEq, Repr

/-- `struct Transaction { value: f32, description: String, method: PaymentMethod, card: Card }` -/
structure Transaction where
  value : F32
  description : RStr
  method : PaymentMethod
  card : Card
deriving DecidableEq, Repr

/-- `struct Payable { status: PayableStatus, tx: Transaction, date: String, fee: f32 }` -/
structure Payable where
  status : PayableStatus
  tx : Transaction
  date : RStr
  fee : F32
deriving DecidableEq, Repr

/-- Is `b` a UTF-8 continuation byte (`0b10xxxxxx`)? -/
def utf8IsCont (b : Nat) : Bool := 128 ≤ b && b < 192

/-- Number of UTF-8 characters of a byte string: the bytes that start a
character are exactly the non-continuation bytes. -/
def utf8CharCount (s : RStr) : Nat :=
  (s.filter (fun b => ! utf8IsCont b)).length

/-- Rust `str::is_char_boundary`: `0` and `len` are boundaries, an interior
index is a boundary iff the byte there does not continue a character, and
an index past the end is not a boundary. -/
def isCharBoundary (s : RStr) (i : Nat) : Bool :=
  i == 0 || i == s.length || (decide (i < s.length) && ! utf8IsCont (s.getD i 0))

/-- Rust suffix slice `s[i..]`: panics (`none`) unless `i` is a character
boundary of `s`, else yields the bytes from `i` on. -/
def sliceFrom (s : RStr) (i : Nat) : Option RStr :=
  if isCharBoundary s i then some (s.drop i) else none

/-- Rust `usize` subtraction `a - b`: panics on underflow in debug builds;
in release builds it wraps, and every caller in this program immediately
uses the wrapped value as a string index astronomically past the end, which
panics as well.  Both panics are modelled as `none`. -/
def usizeSub (a b : Nat) : Option Nat :=
  if b ≤ a then some (a - b) else none

/-- Drop the first UTF-8 character of a byte string: remove the leading
byte and the continuation bytes following it. -/
def dropOneChar : RStr → RStr
  | [] => []
  | _ :: t => t.dropWhile utf8IsCont

/-- Fuelled loop for `lastChars`. -/
def lastCharsGo : Nat → Nat → RStr → RStr
  | 0, _, s => s
  | fuel + 1, n, s =>
      if utf8CharCount s ≤ n then s else lastCharsGo fuel n (dropOneChar s)

/-- The suffix of `s` holding its last `n` UTF-8 characters (all of `s`
when it has at most `n` characters). -/
def lastChars (n : Nat) (s : RStr) : RStr :=
  lastCharsGo s.length n s

/-- `Card::new`: slices the last `CARD_DIGITS_TO_SAVE` bytes off `number`
(`number[number.len() - CARD_DIGITS_TO_SAVE..]`) and stores the other
fields verbatim.  `none` models the panic on short input or on a slice
endpoint inside a character. -/
def Card.new (number holder expires_at cvv : RStr) : Option Card :=
  match usizeSub number.length CARD_DIGITS_TO_SAVE with
  | none => none
  | some i =>
    match sliceFrom number i with
    | none => none
    | some last_four_digits => some ⟨last_four_digits, holder, expires_at, cvv⟩

/-- `Transaction::new`: plain constructor, no validation. -/
def Transaction.new (value : F32) (description : RStr) (method : PaymentMethod)
    (card : Card) : Transaction :=
  ⟨value, description, method, card⟩

/-- `Payable::new`: constructor defaulting `fee` to `0.0`. -/
def Payable.new (status : PayableStatus) (tx : Transaction) (date : RStr) : Payable :=
  ⟨status, tx, date, F32.val 0⟩

/-- `Payable::calculate_fee`: rate lookup by method, then
`self.tx.value * (fee / 100.0)`. -/
def Payable.calculate_fee (self : Payable) : F32 :=
  let fee :=
    match self.tx.method with
    | PaymentMethod.Debit => DEFAULT_FEE_FOR_DEBIT
    | PaymentMethod.Credit => DEFAULT_FEE_FOR_CREDIT
  F32.mul self.tx.value (F32.val (fee / 100))

/-- Days-since-1970-01-01 of a proleptic Gregorian civil date
(Howard Hinnant's `days_from_civil`, with flooring division). -/
def daysFromCivil (y m d : Int) : Int :=
  let y2 := y - (if m ≤ 2 then 1 else 0)
  let era := Int.fdiv y2 400
  let yoe := y2 - era * 400
  let doy := Int.fdiv (153 * (m + (if 2 < m then -3 else 9)) + 2) 5 + d - 1
  let doe := yoe * 365 + Int.fdiv yoe 4 - Int.fdiv yoe 100 + doy
  era * 146097 + doe - 719468

/-- Civil date `(year, month, day)` of a days-since-1970-01-01 count
(Howard Hinnant's `civil_from_days`). -/
def civilFromDays (z0 : Int) : Int × Int × Int :=
  let z := z0 + 719468
  let era := Int.fdiv z 146097
  let doe := z - era * 146097
  let yoe := Int.fdiv (doe - Int.fdiv doe 1460 + Int.fdiv doe 36524 - Int.fdiv doe 146096) 365
  let y := yoe + era * 400
  let doy := doe - (365 * yoe + Int.fdiv yoe 4 - Int.fdiv yoe 100)
  let mp := Int.fdiv (5 * doy + 2) 153
  let d := doy - Int.fdiv (153 * mp + 2) 5 + 1
  let m := mp + (if mp < 10 then 3 else -9)
  (y + (if m ≤ 2 then 1 else 0), m, d)

/-- `chrono::NaiveDate`, as days since 1970-01-01. -/
abbrev NaiveDate := Int

/-- chrono `NaiveDate::MAX` = 262143-12-31, as a day count. -/
def dateMaxDays : Int := daysFromCivil 262143 12 31

/-- `NaiveDate::checked_add_days`: `None` when the result would leave the
representable range. -/
def checkedAddDays (d : NaiveDate) (n : Nat) : Option NaiveDate :=
  if d + (n : Int) ≤ dateMaxDays then some (d + (n : Int)) else none

/-- Decimal digits of a `Nat`, as ASCII bytes. -/
def decimalBytes (n : Nat) : List Nat :=
  (Nat.toDigits 10 n).map Char.toNat

/-- Zero-pad a decimal rendering on the left to `w` digits. -/
def padBytes (w : Nat) (n : Nat) : List Nat :=
  List.replicate (w - (decimalBytes n).length) 48 ++ decimalBytes n

/-- chrono renders `%Y` as 4 zero-padded digits for years 0..=9999 and as
an explicitly signed number otherwise. -/
def yearBytes (y : Int) : List Nat :=
  if 0 ≤ y ∧ y ≤ 9999 then padBytes 4 y.toNat
  else if y < 0 then 45 :: padBytes 4 y.natAbs
  else 43 :: decimalBytes y.toNat

/-- `NaiveDate`'s `Display` / `to_string()`: ISO `%Y-%m-%d`. -/
def dateToString (d : NaiveDate) : RStr :=
  let c := civilFromDays d
  yearBytes c.1 ++ [45] ++ padBytes 2 c.2.1.toNat ++ [45] ++ padBytes 2 c.2.2.toNat

/-- `make_payable`: the clock read `Local::now().date_naive()` is the
explicit `now` argument; the Credit branch's `unwrap` panic is `none`. -/
def make_payable (now : NaiveDate) (tx : Transaction) : Option Payable :=
  match tx.method with
  | PaymentMethod.Debit => some (Payable.new PayableStatus.Paid tx (dateToString now))
  | PaymentMethod.Credit =>
    match checkedAddDays now DEFAULT_DAYS_FOR_CREDIT_PAYABLE with
    | some thirty_days_later =>
        some (Payable.new PayableStatus.WaitingFunds tx (dateToString thirty_days_later))
    | none => none

/-! Sample values used by witness theorems. -/

/-- A concrete card value for witnesses. -/
def sampleCard : Card := ⟨[], [], [], []⟩

/-- A concrete Debit transaction of value 100. -/
def txDebit : Transaction := ⟨F32.val 100, [], PaymentMethod.Debit, sampleCard⟩

/-- A concrete Credit transaction of value 100. -/
def txCredit : Transaction := ⟨F32.val 100, [], PaymentMethod.Credit, sampleCard⟩

/-! Helper lemmas about ASCII byte strings. -/

lemma utf8IsCont_eq_false_of_ascii {b : Nat} (h : b < 128) : utf8IsCont b = false := by
  simp only [utf8IsCont, Bool.and_eq_false_iff, decide_eq_false_iff_not]
  omega

lemma utf8CharCount_of_ascii {s : RStr} (h : ∀ b ∈ s, b < 128) :
    utf8CharCount s = s.length := by
  unfold utf8CharCount
  rw [List.filter_eq_self.mpr]
  intro b hb
  simp [utf8IsCont_eq_false_of_ascii (h b hb)]

lemma dropWhile_utf8IsCont_of_ascii {s : RStr} (h : ∀ b ∈ s, b < 128) :
    s.dropWhile utf8IsCont = s := by
  cases s with
  | nil => rfl
  | cons b t =>
      simp [List.dropWhile_cons, utf8IsCont_eq_false_of_ascii (h b (List.mem_cons_self b t))]

lemma lastCharsGo_of_ascii (fuel n : Nat) :
    ∀ s : RStr, (∀ b ∈ s, b < 128) → s.length - n ≤ fuel →
      lastCharsGo fuel n s = s.drop (s.length - n) := by
  induction fuel with
  | zero =>
      intro s h hf
      have h0 : s.length - n = 0 := Nat.le_zero.mp hf
      simp [lastCharsGo, h0]
  | succ fuel ih =>
      intro s h hf
      by_cases hn : s.length ≤ n
      · have h0 : s.length - n = 0 := by omega
        have hc : utf8CharCount s ≤ n := by rw [utf8CharCount_of_ascii h]; exact hn
        simp [lastCharsGo, if_pos hc, h0]
      · cases s with
        | nil => simp at hn
        | cons b t =>
            have hc : ¬ utf8CharCount (b :: t) ≤ n := by
              rw [utf8CharCount_of_ascii h]; exact hn
            have ht : ∀ x ∈ t, x < 128 := fun x hx => h x (List.mem_cons_of_mem b hx)
            have hdrop : dropOneChar (b :: t) = t := by
              simp [dropOneChar, dropWhile_utf8IsCont_of_ascii ht]
            have hlen : t.length - n ≤ fuel := by
              simp only [List.length_cons] at hf; omega
            have hrec := ih t ht hlen
            have hstep : (b :: t).length - n = (t.length - n) + 1 := by
              simp only [List.length_cons] at hn ⊢; omega
            simp only [lastCharsGo, if_neg hc, hdrop, hrec, hstep, List.drop_succ_cons]

lemma lastChars_of_ascii {s : RStr} (n : Nat) (h : ∀ b ∈ s, b < 128) :
    lastChars n s = s.drop (s.length - n) :=
  lastCharsGo_of_ascii s.length n s h (Nat.sub_le _ _)

lemma isCharBoundary_of_ascii {s : RStr} {i : Nat} (h : ∀ b ∈ s, b < 128)
    (hi : i ≤ s.length) : isCharBoundary s i = true := by
  unfold isCharBoundary
  rcases Nat.lt_or_ge i s.length with hlt | hge
  · have hmem : s[i] ∈ s := List.getElem_mem hlt
    have hgd : s.getD i 0 = s[i] := by
      rw [List.getD_eq_getElem?_getD, List.getElem?_eq_getElem hlt, Option.getD_some]
    simp [hlt, hgd, utf8IsCont_eq_false_of_ascii (h _ hmem)]
  · have he : i = s.length := Nat.le_antisymm hi hge
    simp [he]

/-! Claim theorems. -/

/-- C1: `calculate_fee` returns `tx.value * (rate / 100.0)` with rate 3.0
for Debit and 5.0 for Credit and no rounding; in particular a Debit
payable of value V yields `V * 0.03` exactly and a Credit payable of value
V yields `V * 0.05` exactly. -/
theorem calculate_fee_rate_spec (p : Payable) :
    (p.tx.method = PaymentMethod.Debit →
      p.calculate_fee = F32.mul p.tx.value (F32.val (DEFAULT_FEE_FOR_DEBIT / 100))
      ∧ p.calculate_fee = F32.mul p.tx.value (F32.val 0.03))
    ∧ (p.tx.method = PaymentMethod.Credit →
      p.calculate_fee = F32.mul p.tx.value (F32.val (DEFAULT_FEE_FOR_CREDIT / 100))
      ∧ p.calculate_fee = F32.mul p.tx.value (F32.val 0.05)) := by
  have h3 : (DEFAULT_FEE_FOR_DEBIT / 100 : Rat) = 0.03 := by
    norm_num [DEFAULT_FEE_FOR_DEBIT]
  have h5 : (DEFAULT_FEE_FOR_CREDIT / 100 : Rat) = 0.05 := by
    norm_num [DEFAULT_FEE_FOR_CREDIT]
  constructor
  · intro hm
    have he : p.calculate_fee = F32.mul p.tx.value (F32.val (DEFAULT_FEE_FOR_DEBIT / 100)) := by
      simp [Payable.calculate_fee, hm]
    exact ⟨he, by rw [he, h3]⟩
  · intro hm
    have he : p.calculate_fee = F32.mul p.tx.value (F32.val (DEFAULT_FEE_FOR_CREDIT / 100)) := by
      simp [Payable.calculate_fee, hm]
    exact ⟨he, by rw [he, h5]⟩

/-- Witness for C1 at concrete Debit and Credit payables of value 100. -/
theorem calculate_fee_rate_spec_witness :
    (Payable.mk PayableStatus.Paid txDebit [] (F32.val 0)).calculate_fee
      = F32.mul (F32.val 100) (F32.val 0.03)
    ∧ (Payable.mk PayableStatus.WaitingFunds txCredit [] (F32.val 0)).calculate_fee
      = F32.mul (F32.val 100) (F32.val 0.05) :=
  ⟨((calculate_fee_rate_spec _).1 rfl).2, ((calculate_fee_rate_spec _).2 rfl).2⟩

/-- C2: on a Debit transaction, `make_payable` succeeds with status `Paid`
and date the rendering of the clock's current local date. -/
theorem make_payable_debit (now : NaiveDate) (tx : Transaction)
    (h : tx.method = PaymentMethod.Debit) :
    make_payable now tx
      = some (Payable.mk PayableStatus.Paid tx (dateToString now) (F32.val 0)) := by
  simp [make_payable, h, Payable.new]

/-- Witness for C2 at the epoch date and a concrete Debit transaction. -/
theorem make_payable_debit_witness :
    make_payable 0 txDebit
      = some (Payable.mk PayableStatus.Paid txDebit (dateToString 0) (F32.val 0)) :=
  make_payable_debit 0 txDebit rfl

/-- C3: on a Credit transaction, whenever adding the fixed 30-day holding
period succeeds, `make_payable` succeeds with status `WaitingFunds` and
date the rendering of the current date plus exactly 30 days. -/
theorem make_payable_credit (now : NaiveDate) (tx : Transaction) (d : NaiveDate)
    (h : tx.method = PaymentMethod.Credit)
    (hd : checkedAddDays now DEFAULT_DAYS_FOR_CREDIT_PAYABLE = some d) :
    d = now + (DEFAULT_DAYS_FOR_CREDIT_PAYABLE : Int)
    ∧ make_payable now tx
        = some (Payable.mk PayableStatus.WaitingFunds tx (dateToString d) (F32.val 0)) := by
  have hdv : d = now + (DEFAULT_DAYS_FOR_CREDIT_PAYABLE : Int) := by
    unfold checkedAddDays at hd
    by_cases hle : now + (DEFAULT_DAYS_FOR_CREDIT_PAYABLE : Int) ≤ dateMaxDays
    · rw [if_pos hle] at hd
      exact (Option.some.inj hd).symm
    · rw [if_neg hle] at hd
      exact absurd hd (by simp)
  exact ⟨hdv, by simp [make_payable, h, hd, Payable.new]⟩

/-- Witness for C3 at the epoch date and a concrete Credit transaction. -/
theorem make_payable_credit_witness :
    (30 : Int) = 0 + (DEFAULT_DAYS_FOR_CREDIT_PAYABLE : Int)
    ∧ make_payable 0 txCredit
        = some (Payable.mk PayableStatus.WaitingFunds txCredit (dateToString 30) (F32.val 0)) :=
  make_payable_credit 0 txCredit 30 rfl (by decide)

/-- C4 (amended): for every all-ASCII card number of length at least 4,
`Card::new` succeeds, stores exactly the last 4 characters of the input
(which coincide with its last 4 bytes) together with `holder`,
`expires_at` and `cvv` verbatim, and the stored number has length at
most 4. -/
theorem card_new_ascii (number holder expires_at cvv : RStr)
    (hlen : 4 ≤ number.length) (hb : ∀ b ∈ number, b < 128) :
    Card.new number holder expires_at cvv
      = some ⟨number.drop (number.length - 4), holder, expires_at, cvv⟩
    ∧ number.drop (number.length - 4) = lastChars 4 number
    ∧ (number.drop (number.length - 4)).length ≤ 4 := by
  have hbd : isCharBoundary number (number.length - 4) = true :=
    isCharBoundary_of_ascii hb (Nat.sub_le _ _)
  refine ⟨?_, (lastChars_of_ascii 4 hb).symm, ?_⟩
  · simp [Card.new, usizeSub, sliceFrom, CARD_DIGITS_TO_SAVE, hlen, hbd]
  · rw [List.length_drop]
    omega

/-- Witness for C4 (amended) on the test suite's card number "12345678". -/
theorem card_new_ascii_witness :
    Card.new [49, 50, 51, 52, 53, 54, 55, 56] [104] [101] [99]
      = some ⟨[53, 54, 55, 56], [104], [101], [99]⟩
    ∧ ([53, 54, 55, 56] : RStr) = lastChars 4 [49, 50, 51, 52, 53, 54, 55, 56]
    ∧ ([53, 54, 55, 56] : RStr).length ≤ 4 := by
  exact card_new_ascii [49, 50, 51, 52, 53, 54, 55, 56] [104] [101] [99]
    (by decide) (by decide)

/-- Counterexample to C4 as stated: the input "ééab"
(bytes `C3 A9 C3 A9 61 62`) has exactly 4 characters, so its last 4
characters are the whole input, yet `Card::new` stores the last 4 BYTES
"éab", which differ from the input. -/
theorem card_new_last_four_chars_cex :
    utf8CharCount [195, 169, 195, 169, 97, 98] = 4
    ∧ lastChars 4 [195, 169, 195, 169, 97, 98] = [195, 169, 195, 169, 97, 98]
    ∧ Card.new [195, 169, 195, 169, 97, 98] [104] [101] [99]
        = some ⟨[195, 169, 97, 98], [104], [101], [99]⟩
    ∧ ([195, 169, 97, 98] : RStr) ≠ [195, 169, 195, 169, 97, 98] := by
  decide

/-- C5: a freshly constructed Payable has `fee = 0.0`, and `make_payable`
never writes the computed fee: every Payable it returns has `fee = 0.0`. -/
theorem payable_fee_default :
    (∀ (s : PayableStatus) (tx : Transaction) (d : RStr), (Payable.new s tx d).fee = F32.val 0)
    ∧ (∀ (now : NaiveDate) (tx : Transaction) (p : Payable),
        make_payable now tx = some p → p.fee = F32.val 0) := by
  refine ⟨fun s tx d => rfl, ?_⟩
  intro now tx p h
  cases hm : tx.method with
  | Debit =>
      simp [make_payable, hm, Payable.new] at h
      rw [← h]
  | Credit =>
      cases hadd : checkedAddDays now DEFAULT_DAYS_FOR_CREDIT_PAYABLE with
      | none => simp [make_payable, hm, hadd] at h
      | some d =>
          simp [make_payable, hm, hadd, Payable.new] at h
          rw [← h]

/-- Witness for C5 at concrete constructions. -/
theorem payable_fee_default_witness :
    (Payable.new PayableStatus.Paid txDebit []).fee = F32.val 0
    ∧ (Payable.mk PayableStatus.Paid txDebit (dateToString 0) (F32.val 0)).fee = F32.val 0 :=
  ⟨payable_fee_default.1 PayableStatus.Paid txDebit [],
   payable_fee_default.2 0 txDebit
     (Payable.mk PayableStatus.Paid txDebit (dateToString 0) (F32.val 0)) rfl⟩

/-- Counterexample to C6 as stated over characters: the input "éé"
(bytes `C3 A9 C3 A9`) has only 2 characters, yet it is 4 bytes long, so
the slice `number[0..]` succeeds and `Card::new` returns a Card storing
"éé" instead of failing. -/
theorem card_new_short_chars_cex :
    utf8CharCount [195, 169, 195, 169] = 2
    ∧ Card.new [195, 169, 195, 169] [104] [101] [99]
        = some ⟨[195, 169, 195, 169], [104], [101], [99]⟩
    ∧ Card.new [195, 169, 195, 169] [104] [101] [99] ≠ none := by
  decide

/-- C6 (amended): on a card number shorter than 4 BYTES, `Card::new`
panics (the `usize` index computation / slice goes out of bounds) and
returns no Card; length is measured in bytes, not characters. -/
theorem card_new_short_input (number holder expires_at cvv : RStr)
    (h : number.length < 4) :
    Card.new number holder expires_at cvv = none := by
  have h4 : ¬ CARD_DIGITS_TO_SAVE ≤ number.length := by
    simp only [CARD_DIGITS_TO_SAVE]
    omega
  unfold Card.new usizeSub
  rw [if_neg h4]

/-- Witness for C6 on the 2-byte input "12". -/
theorem card_new_short_input_witness :
    Card.new [49, 50] [104] [101] [99] = none :=
  card_new_short_input [49, 50] [104] [101] [99] (by decide)

/-- C7: on the Credit path, `make_payable` aborts (the `unwrap` panics)
exactly when adding the 30-day holding period to the current date
overflows the representable date range. -/
theorem make_payable_credit_overflow (now : NaiveDate) (tx : Transaction)
    (h : tx.method = PaymentMethod.Credit) :
    (make_payable now tx = none
      ↔ checkedAddDays now DEFAULT_DAYS_FOR_CREDIT_PAYABLE = none) := by
  cases hadd : checkedAddDays now DEFAULT_DAYS_FOR_CREDIT_PAYABLE with
  | none => simp [make_payable, h, hadd]
  | some d => simp [make_payable, h, hadd]

/-- Witness for C7 at the maximal representable date, where the addition
overflows. -/
theorem make_payable_credit_overflow_witness :
    (make_payable dateMaxDays txCredit = none
      ↔ checkedAddDays dateMaxDays DEFAULT_DAYS_FOR_CREDIT_PAYABLE = none) :=
  make_payable_credit_overflow dateMaxDays txCredit rfl

/-- C8: `Transaction::new` is total (it cannot fail: no `Option`/panic in
its type) and stores `value` — including NaN or negative values —
`description`, `method` and `card` unchanged. -/
theorem transaction_new_id (value : F32) (description : RStr)
    (method : PaymentMethod) (card : Card) :
    (Transaction.new value description method card).value = value
    ∧ (Transaction.new value description method card).description = description
    ∧ (Transaction.new value description method card).method = method
    ∧ (Transaction.new value description method card).card = card :=
  ⟨rfl, rfl, rfl, rfl⟩

/-- C9: `calculate_fee` depends only on `tx.value` and `tx.method`: two
payables agreeing on those agree on the fee, whatever their status, date,
fee field, description or card. -/
theorem calculate_fee_depends_only_on_value_method (p q : Payable)
    (hv : p.tx.value = q.tx.value) (hm : p.tx.method = q.tx.method) :
    p.calculate_fee = q.calculate_fee := by
  unfold Payable.calculate_fee
  rw [hv, hm]

/-- Witness for C9 on two payables differing in status, date, fee,
description and card but agreeing on value and method. -/
theorem calculate_fee_depends_only_witness :
    (Payable.mk PayableStatus.Paid
        (Transaction.mk (F32.val 100) [97] PaymentMethod.Debit ⟨[49], [], [], []⟩)
        [100] (F32.val 7)).calculate_fee
      = (Payable.mk PayableStatus.WaitingFunds
          (Transaction.mk (F32.val 100) [98] PaymentMethod.Debit ⟨[50], [], [], []⟩)
          [101] (F32.val 9)).calculate_fee :=
  calculate_fee_depends_only_on_value_method _ _ rfl rfl

/-- C10: `Card::new` slices bytes, not characters: on "héllo"
(5 characters, slice index inside the two-byte é) it panics; whenever it
succeeds on an input of at least 4 bytes it stores the last 4 bytes; and
on "ééab" the stored last 4 bytes differ from the last 4 characters. -/
theorem card_new_slices_bytes :
    (utf8CharCount [104, 195, 169, 108, 108, 111] = 5
      ∧ utf8IsCont ([104, 195, 169, 108, 108, 111].getD 2 0) = true
      ∧ Card.new [104, 195, 169, 108, 108, 111] [104] [101] [99] = none)
    ∧ (∀ (number holder expires_at cvv : RStr) (c : Card), 4 ≤ number.length →
        Card.new number holder expires_at cvv = some c →
        c.number = number.drop (number.length - 4))
    ∧ (Card.new [195, 169, 195, 169, 97, 98] [104] [101] [99]
        = some ⟨[195, 169, 97, 98], [104], [101], [99]⟩
      ∧ [195, 169, 97, 98] ≠ lastChars 4 [195, 169, 195, 169, 97, 98]) := by
  refine ⟨by decide, ?_, by decide⟩
  intro number holder expires_at cvv c hlen h
  by_cases hbd : isCharBoundary number (number.length - 4) = true
  · simp [Card.new, usizeSub, sliceFrom, CARD_DIGITS_TO_SAVE, hlen, hbd] at h
    rw [← h]
  · simp [Card.new, usizeSub, sliceFrom, CARD_DIGITS_TO_SAVE, hlen, hbd] at h

/-- Witness for C10 on the all-ASCII input "12345". -/
theorem card_new_slices_bytes_witness :
    (Card.mk [50, 51, 52, 53] [104] [101] [99]).number
      = [49, 50, 51, 52, 53].drop ([49, 50, 51, 52, 53].length - 4) :=
  card_new_slices_bytes.2.1 [49, 50, 51, 52, 53] [104] [101] [99]
    (Card.mk [50, 51, 52, 53] [104] [101] [99]) (by decide) (by decide)

end PSP
